import Mathlib

/-!
# Verification of the user-CRUD persistence layer

Shallow embedding of `agent/tools/tools.py`: a single SQLite table
`users(id INTEGER PRIMARY KEY AUTOINCREMENT, name TEXT NOT NULL,
email TEXT NOT NULL UNIQUE)` together with the seven exposed operations
(`create_user`, `read_user`, `update_user`, `delete_user`, `list_users`,
`delete_all_users`, `populate_database`).

The database state is a pair of the AUTOINCREMENT sequence value
(SQLite's `sqlite_sequence` entry for the table, which `DELETE` never
resets) and the list of rows in rowid order (a full-table `SELECT` on a
rowid table scans in rowid order, so `list_users` returns this list).
A fresh INSERT under AUTOINCREMENT receives rowid
`max(sequence, largest rowid present) + 1`.

Each Python function returns a status-tagged dictionary; these are
embedded as one inductive result type per operation, one constructor per
`"status"` value the function can produce.  The human-readable
`"message"` strings are presentation-only and are not modeled; the
structured payloads (user records, ids, counts) are.  Operations that
touch the database return `result × DB`; `read_user` and `list_users`
only query, so they return just their result.
-/

/-- A row of the `users` table. -/
structure User where
  id : Nat
  name : String
  email : String
deriving Repr, DecidableEq

/-- The state of the database: the AUTOINCREMENT sequence value and the
rows of the `users` table in rowid order. -/
structure DB where
  seq : Nat
  rows : List User
deriving Repr, DecidableEq

/-- `create_table`: the freshly created empty table (schema creation is
a no-op on an existing table; here it yields the initial state). -/
def create_table : DB := ⟨0, []⟩

/-- The largest `id` present in the table (0 when empty). -/
def maxId (rows : List User) : Nat :=
  rows.foldr (fun u m => max u.id m) 0

/-- The rowid SQLite assigns to the next INSERT under AUTOINCREMENT:
one larger than both the stored sequence value and every rowid
currently in the table. -/
def nextId (db : DB) : Nat :=
  max db.seq (maxId db.rows) + 1

/-- Whether some row already holds `email` (the `UNIQUE` constraint
check performed by INSERT). -/
def emailExists (rows : List User) (email : String) : Bool :=
  rows.any (fun u => u.email == email)

/-- Result of `create_user`: `{"status": "Success", "user": ...}` or the
`sqlite3.IntegrityError` branch `{"status": "Error", ...}` for a
duplicate email (the constructor carries the offending email that the
message interpolates). -/
inductive CreateResult where
  | success (user : User)
  | duplicateEmail (email : String)
deriving Repr, DecidableEq

/-- `create_user(name, email)`: INSERT the pair; on a `UNIQUE(email)`
violation the transaction raises `IntegrityError` and nothing is
committed; on success the new row gets `lastrowid` and the sequence
advances to it. -/
def create_user (name email : String) (db : DB) : CreateResult × DB :=
  if emailExists db.rows email then
    (.duplicateEmail email, db)
  else
    let uid := nextId db
    (.success ⟨uid, name, email⟩, ⟨uid, db.rows ++ [⟨uid, name, email⟩]⟩)

/-- Result of `read_user`: `{"status": "Success", "user": ...}` or
`{"status": "Not Found", ...}` (the constructor carries the id the
message interpolates). -/
inductive ReadResult where
  | success (user : User)
  | notFound (user_id : Nat)
deriving Repr, DecidableEq

/-- `read_user(user_id)`: `SELECT id, name, email FROM users WHERE id = ?`
and branch on whether a row came back.  Queries only; no state change. -/
def read_user (user_id : Nat) (db : DB) : ReadResult :=
  match db.rows.find? (fun u => u.id == user_id) with
  | some u => .success u
  | none => .notFound user_id

/-- Result of `update_user`: `"Success"` with the updated user,
`"Error"` for the missing-fields guard, `"Not Found"` propagated from
the initial `read_user`, or `"Error"` from the `IntegrityError` branch
when the new email collides with a different row. -/
inductive UpdateResult where
  | success (updated_user : User)
  | invalidArgument
  | notFound (user_id : Nat)
  | duplicateEmail (email : String)
deriving Repr, DecidableEq

/-- `update_user(user_id, name=None, email=None)`: reject when both
optional fields are omitted; read the current row (propagating its
`Not Found`); fill each omitted field from the current record; then
`UPDATE users SET name = ?, email = ? WHERE id = ?`, which raises
`IntegrityError` (and commits nothing) exactly when a *different* row
already holds the new email. -/
def update_user (user_id : Nat) (name email : Option String) (db : DB) :
    UpdateResult × DB :=
  if name.isNone && email.isNone then
    (.invalidArgument, db)
  else
    match read_user user_id db with
    | .notFound uid => (.notFound uid, db)
    | .success current_data =>
      let new_name := name.getD current_data.name
      let new_email := email.getD current_data.email
      if db.rows.any (fun u => u.email == new_email && u.id != user_id) then
        (.duplicateEmail new_email, db)
      else
        (.success ⟨user_id, new_name, new_email⟩,
         ⟨db.seq,
          db.rows.map (fun u =>
            if u.id == user_id then ⟨user_id, new_name, new_email⟩ else u)⟩)

/-- Result of `delete_user`: `{"status": "Success", ...}` when
`cursor.rowcount > 0`, else `{"status": "Not Found", ...}` (both
messages interpolate the id, carried here as payload). -/
inductive DeleteResult where
  | success (user_id : Nat)
  | notFound (user_id : Nat)
deriving Repr, DecidableEq

/-- `delete_user(user_id)`: `DELETE FROM users WHERE id = ?`, then
branch on `cursor.rowcount`. -/
def delete_user (user_id : Nat) (db : DB) : DeleteResult × DB :=
  let remaining := db.rows.filter (fun u => u.id != user_id)
  if remaining.length < db.rows.length then
    (.success user_id, ⟨db.seq, remaining⟩)
  else
    (.notFound user_id, db)

/-- `list_users()`: `SELECT id, name, email FROM users` — every row, in
rowid scan order.  Queries only; no state change. -/
def list_users (db : DB) : List User :=
  db.rows

/-- Result of `delete_all_users`: always `{"status": "Success",
"deleted_count": n}` with the pre-deletion row count. -/
structure DeleteAllResult where
  deleted_count : Nat
deriving Repr, DecidableEq

/-- `delete_all_users()`: count the rows, then `DELETE FROM users`
(which does not reset the AUTOINCREMENT sequence). -/
def delete_all_users (db : DB) : DeleteAllResult × DB :=
  (⟨db.rows.length⟩, ⟨db.seq, []⟩)

/-- The fixed `sample_users` list of `populate_database`. -/
def sample_users : List (String × String) :=
  [("Alice Smith", "alice@example.com"),
   ("Bob Johnson", "bob@example.com"),
   ("Charlie Lee", "charlie@example.com"),
   ("Dana White", "dana@example.com"),
   ("Eve Black", "eve@example.com")]

/-- Result of `populate_database`: `{"status": "Skipped",
"existing_count": n}` on a non-empty table, else `{"status": "Success",
"created_users": [...], "created_count": n}`. -/
inductive PopulateResult where
  | skipped (existing_count : Nat)
  | success (created_users : List User) (created_count : Nat)
deriving Repr, DecidableEq

/-- One iteration of `populate_database`'s loop: call `create_user` on
the next sample pair and append the user when the result is a
`"Success"`. -/
def populateStep (acc : List User × DB) (p : String × String) :
    List User × DB :=
  match create_user p.1 p.2 acc.2 with
  | (.success u, db1) => (acc.1 ++ [u], db1)
  | (_, db1) => (acc.1, db1)

/-- `populate_database()`: skip when `list_users()` is non-empty;
otherwise run `create_user` on each sample pair, collecting the users
from the `"Success"` results. -/
def populate_database (db : DB) : PopulateResult × DB :=
  let existing_users := list_users db
  if existing_users.isEmpty then
    let r := sample_users.foldl populateStep ([], db)
    (.success r.1 r.1.length, r.2)
  else
    (.skipped existing_users.length, db)

/-- One invocation of an exposed operation (the state-relevant
arguments of each tool). -/
inductive Op where
  | create (name email : String)
  | read (user_id : Nat)
  | update (user_id : Nat) (name email : Option String)
  | delete (user_id : Nat)
  | list
  | deleteAll
  | seedIfEmpty
deriving Repr, DecidableEq

/-- The state reached after one operation (queries leave it as is). -/
def applyOp (db : DB) : Op → DB
  | .create n e => (create_user n e db).2
  | .read _ => db
  | .update uid n e => (update_user uid n e db).2
  | .delete uid => (delete_user uid db).2
  | .list => db
  | .deleteAll => (delete_all_users db).2
  | .seedIfEmpty => (populate_database db).2

/-- The state reached by a sequence of operations from the fresh
table. -/
def run (ops : List Op) : DB :=
  ops.foldl applyOp create_table

/-- No two rows share an email. -/
def emailsUnique (rows : List User) : Prop :=
  rows.Pairwise (fun a b => a.email ≠ b.email)

/-- Row ids strictly increase along the table (rowid order); in
particular all ids are distinct. -/
def idsSorted (rows : List User) : Prop :=
  rows.Pairwise (fun a b => a.id < b.id)

/-- The representation invariant of every reachable database state. -/
def DBInv (db : DB) : Prop :=
  emailsUnique db.rows ∧ idsSorted db.rows

/-- Number of rows holding a given email. -/
def countEmail (rows : List User) (e : String) : Nat :=
  (rows.filter (fun u => u.email == e)).length

/-- Whether a `create_user` result is the error dictionary
(`"status": "Error"`). -/
def CreateResult.isErr : CreateResult → Bool
  | .duplicateEmail _ => true
  | _ => false

/-- Whether an `update_user` result is one of the non-success
dictionaries (`"status": "Error"` or `"status": "Not Found"`). -/
def UpdateResult.isErr : UpdateResult → Bool
  | .success _ => false
  | _ => true

/-- Whether a `delete_user` result is the `"status": "Not Found"`
dictionary. -/
def DeleteResult.isErr : DeleteResult → Bool
  | .notFound _ => true
  | _ => false

/-- The five rows `populate_database` inserts into an empty table whose
AUTOINCREMENT sequence stands at `s`. -/
def seededRows (s : Nat) : List User :=
  [⟨s + 1, "Alice Smith", "alice@example.com"⟩,
   ⟨s + 2, "Bob Johnson", "bob@example.com"⟩,
   ⟨s + 3, "Charlie Lee", "charlie@example.com"⟩,
   ⟨s + 4, "Dana White", "dana@example.com"⟩,
   ⟨s + 5, "Eve Black", "eve@example.com"⟩]

/-! ## Invariant preservation -/

@[simp] theorem maxId_nil : maxId [] = 0 := rfl

@[simp] theorem maxId_cons (u : User) (l : List User) :
    maxId (u :: l) = max u.id (maxId l) := rfl

theorem mem_id_le_maxId {rows : List User} {u : User} (h : u ∈ rows) :
    u.id ≤ maxId rows := by
  induction rows with
  | nil => simp at h
  | cons v l ih =>
    rcases List.mem_cons.mp h with rfl | h
    · simp
    · have := ih h
      simp only [maxId_cons]
      omega

theorem emailExists_eq_false {rows : List User} {e : String}
    (h : emailExists rows e = false) : ∀ u ∈ rows, u.email ≠ e := by
  simpa [emailExists] using h

theorem DBInv_create (n e : String) {db : DB} (h : DBInv db) :
    DBInv (create_user n e db).2 := by
  unfold create_user
  cases hex : emailExists db.rows e with
  | true => simpa using h
  | false =>
    obtain ⟨he, hi⟩ := h
    simp only [Bool.false_eq_true, if_false]
    constructor
    · unfold emailsUnique at *
      rw [List.pairwise_append]
      refine ⟨he, by simp, ?_⟩
      intro a ha b hb
      simp only [List.mem_singleton] at hb
      subst hb
      exact emailExists_eq_false hex a ha
    · unfold idsSorted at *
      rw [List.pairwise_append]
      refine ⟨hi, by simp, ?_⟩
      intro a ha b hb
      simp only [List.mem_singleton] at hb
      subst hb
      have h1 := mem_id_le_maxId ha
      have h2 : maxId db.rows ≤ max db.seq (maxId db.rows) := Nat.le_max_right _ _
      simp only [nextId]
      omega

theorem idsSorted_map_update (user_id : Nat) (nn ne : String)
    {rows : List User} (h : idsSorted rows) :
    idsSorted (rows.map (fun u =>
      if u.id == user_id then ⟨user_id, nn, ne⟩ else u)) := by
  unfold idsSorted at *
  refine List.Pairwise.map _ ?_ h
  intro a b hab
  have ida : (if a.id == user_id then (⟨user_id, nn, ne⟩ : User) else a).id = a.id := by
    by_cases ha : a.id = user_id <;> simp [ha]
  have idb : (if b.id == user_id then (⟨user_id, nn, ne⟩ : User) else b).id = b.id := by
    by_cases hb : b.id = user_id <;> simp [hb]
  rw [ida, idb]
  exact hab

theorem emailsUnique_map_update (user_id : Nat) (nn ne : String) :
    ∀ {rows : List User}, emailsUnique rows → idsSorted rows →
      (∀ u ∈ rows, u.id ≠ user_id → u.email ≠ ne) →
      emailsUnique (rows.map (fun u =>
        if u.id == user_id then ⟨user_id, nn, ne⟩ else u)) := by
  intro rows
  induction rows with
  | nil => intro _ _ _; simp [emailsUnique]
  | cons u l ih =>
    intro hpe hids hne
    rw [emailsUnique, List.map_cons, List.pairwise_cons]
    rw [emailsUnique, List.pairwise_cons] at hpe
    rw [idsSorted, List.pairwise_cons] at hids
    obtain ⟨hpe1, hpe2⟩ := hpe
    obtain ⟨hids1, hids2⟩ := hids
    constructor
    · intro b hb
      simp only [List.mem_map] at hb
      obtain ⟨v, hv, rfl⟩ := hb
      by_cases hu : u.id = user_id
    
      · -- the head is the updated row; every later row keeps its email,
        -- which differs from the new email
        have hvid : v.id ≠ user_id := by
          have := hids1 v hv
          omega
        have hvemail : v.email ≠ ne := hne v (List.mem_cons_of_mem _ hv) hvid
        simp [hu, hvid]
        exact fun hc => hvemail hc.symm
      · by_cases hv2 : v.id = user_id
        · -- a later row is the updated one; the head keeps its email
          have huemail : u.email ≠ ne := hne u (List.mem_cons_self _ _) hu
          simp [hu, hv2]
          exact huemail
        · simp [hu, hv2]
          exact hpe1 v hv
    · exact ih hpe2 hids2 (fun v hv hvid => hne v (List.mem_cons_of_mem _ hv) hvid)

theorem DBInv_update (user_id : Nat) (nm em : Option String) {db : DB}
    (h : DBInv db) : DBInv (update_user user_id nm em db).2 := by
  unfold update_user
  split
  · exact h
  · split
    · exact h
    next current_data heq =>
      cases hany : db.rows.any
          (fun u => u.email == em.getD current_data.email && u.id != user_id) with
      | true => simpa [hany] using h
      | false =>
        simp only [hany, Bool.false_eq_true, if_false]
        obtain ⟨he, hi⟩ := h
        refine ⟨?_, idsSorted_map_update _ _ _ hi⟩
        refine emailsUnique_map_update _ _ _ he hi ?_
        intro u hu huid
        have := List.any_eq_false.mp hany u hu
        simp only [Bool.and_eq_true, beq_iff_eq, bne_iff_ne, ne_eq, not_and] at this
        intro hc
        exact (this hc) huid

theorem DBInv_delete (user_id : Nat) {db : DB} (h : DBInv db) :
    DBInv (delete_user user_id db).2 := by
  simp only [delete_user]
  split
  · obtain ⟨he, hi⟩ := h
    exact ⟨List.Pairwise.sublist (List.filter_sublist _) he,
           List.Pairwise.sublist (List.filter_sublist _) hi⟩
  · exact h

theorem DBInv_delete_all {db : DB} (_ : DBInv db) :
    DBInv (delete_all_users db).2 :=
  ⟨List.Pairwise.nil, List.Pairwise.nil⟩

theorem populateStep_snd (acc : List User × DB) (p : String × String) :
    (populateStep acc p).2 = (create_user p.1 p.2 acc.2).2 := by
  unfold populateStep
  rcases hc : create_user p.1 p.2 acc.2 with ⟨r, db1⟩
  cases r <;> simp

theorem DBInv_foldl_populateStep (ps : List (String × String)) :
    ∀ (acc : List User) (db : DB), DBInv db →
      DBInv ((ps.foldl populateStep (acc, db)).2) := by
  induction ps with
  | nil => intro acc db h; simpa using h
  | cons p ps ih =>
    intro acc db h
    rw [List.foldl_cons]
    rcases hs : populateStep (acc, db) p with ⟨acc1, db1⟩
    have : db1 = (create_user p.1 p.2 db).2 := by
      have := populateStep_snd (acc, db) p
      rw [hs] at this
      exact this
    subst this
    exact ih acc1 _ (DBInv_create _ _ h)

theorem DBInv_populate {db : DB} (h : DBInv db) :
    DBInv (populate_database db).2 := by
  simp only [populate_database]
  split
  · exact DBInv_foldl_populateStep sample_users [] db h
  · exact h

theorem DBInv_applyOp {db : DB} (h : DBInv db) (op : Op) :
    DBInv (applyOp db op) := by
  cases op with
  | create n e => exact DBInv_create n e h
  | read _ => exact h
  | update uid n e => exact DBInv_update uid n e h
  | delete uid => exact DBInv_delete uid h
  | list => exact h
  | deleteAll => exact DBInv_delete_all h
  | seedIfEmpty => exact DBInv_populate h

theorem DBInv_run (ops : List Op) : DBInv (run ops) := by
  unfold run
  have : ∀ (db : DB), DBInv db → DBInv (ops.foldl applyOp db) := by
    induction ops with
    | nil => intro db h; simpa using h
    | cons op ops ih =>
      intro db h
      rw [List.foldl_cons]
      exact ih _ (DBInv_applyOp h op)
  exact this create_table ⟨List.Pairwise.nil, List.Pairwise.nil⟩

/-! ## Counting rows by email -/

theorem countEmail_eq_zero {rows : List User} {e : String}
    (h : emailExists rows e = false) : countEmail rows e = 0 := by
  rw [countEmail, List.length_eq_zero, List.filter_eq_nil_iff]
  intro u hu
  simpa using emailExists_eq_false h u hu

theorem countEmail_eq_one_of_unique {rows : List User} {e : String}
    (hu : emailsUnique rows) (he : emailExists rows e = true) :
    countEmail rows e = 1 := by
  induction rows with
  | nil => simp [emailExists] at he
  | cons u l ih =>
    rw [emailsUnique, List.pairwise_cons] at hu
    obtain ⟨hu1, hu2⟩ := hu
    by_cases hh : u.email = e
    · have hl : emailExists l e = false := by
        rw [← Bool.not_eq_true, emailExists, List.any_eq_true]
        rintro ⟨v, hv, hve⟩
        simp only [beq_iff_eq] at hve
        exact hu1 v hv (hh.trans hve.symm)
      have h0 := countEmail_eq_zero hl
      rw [countEmail] at h0 ⊢
      simp [List.filter_cons, hh, h0]
    · have hee : emailExists l e = true := by
        rw [emailExists, List.any_cons] at he
        rw [emailExists, List.any_eq_true]
        simp only [beq_iff_eq]
        simpa [hh] using he
      have h1 := ih hu2 hee
      rw [countEmail] at h1 ⊢
      simp [List.filter_cons, hh, h1]

/-! ## Claim theorems -/

/-- C1: on a fresh (empty) table, `create_user(name, email)` succeeds
and returns a `User` with the given name and email and the generated id
(the sequence value plus one; `1` on a brand-new table), and a
subsequent `read_user` of that id returns exactly that `User`. -/
theorem create_then_read_fresh (s : Nat) (n e : String) :
    (create_user n e ⟨s, []⟩).1 = CreateResult.success ⟨s + 1, n, e⟩ ∧
    read_user (s + 1) (create_user n e ⟨s, []⟩).2 =
      ReadResult.success ⟨s + 1, n, e⟩ := by
  constructor
  · simp [create_user, emailExists, nextId, maxId]
  · simp [create_user, emailExists, nextId, maxId, read_user]

/-- C5: `update_user` with neither `name` nor `email` supplied returns
the `InvalidArgument` error and leaves the whole database (hence the
addressed row) unchanged, in every state and for every id. -/
theorem update_no_fields_invalid_argument (user_id : Nat) (db : DB) :
    update_user user_id none none db = (UpdateResult.invalidArgument, db) := by
  simp [update_user]

/-- C7: on a table with N rows, `delete_all_users` reports N rows
removed and leaves `list_users` empty; an immediately repeated call
reports 0 removed. -/
theorem delete_all_users_spec (db : DB) :
    (delete_all_users db).1.deleted_count = db.rows.length ∧
    list_users (delete_all_users db).2 = [] ∧
    (delete_all_users (delete_all_users db).2).1.deleted_count = 0 := by
  simp [delete_all_users, list_users]

/-- C2: starting from any state whose rows satisfy the email-uniqueness
invariant, two consecutive `create_user` calls with the same email (any
names) end with the second call rejected as a duplicate email, and the
table then contains exactly one row holding that email. -/
theorem create_duplicate_email_second_rejected (db : DB) (n1 n2 e : String)
    (hinv : emailsUnique db.rows) :
    (create_user n2 e (create_user n1 e db).2).1 =
      CreateResult.duplicateEmail e ∧
    countEmail (create_user n2 e (create_user n1 e db).2).2.rows e = 1 := by
  cases hex : emailExists db.rows e with
  | true =>
    have h1 : (create_user n1 e db).2 = db := by simp [create_user, hex]
    rw [h1]
    have h2 : create_user n2 e db = (.duplicateEmail e, db) := by
      simp [create_user, hex]
    rw [h2]
    exact ⟨rfl, countEmail_eq_one_of_unique hinv hex⟩
  | false =>
    have h1 : (create_user n1 e db).2 =
        ⟨nextId db, db.rows ++ [⟨nextId db, n1, e⟩]⟩ := by
      simp [create_user, hex]
    rw [h1]
    have hex1 : emailExists (db.rows ++ [⟨nextId db, n1, e⟩]) e = true := by
      simp [emailExists]
    have h2 : create_user n2 e ⟨nextId db, db.rows ++ [⟨nextId db, n1, e⟩]⟩ =
        (.duplicateEmail e, ⟨nextId db, db.rows ++ [⟨nextId db, n1, e⟩]⟩) := by
      simp [create_user, hex1]
    rw [h2]
    refine ⟨rfl, ?_⟩
    have hz := countEmail_eq_zero hex
    rw [countEmail] at hz ⊢
    simp [List.filter_append, hz]

/-- C2 witness: the spec scenario — Alice then Bob with
`alice@example.com` on the fresh table. -/
theorem create_duplicate_email_second_rejected_witness :
    (create_user "Bob" "alice@example.com"
        (create_user "Alice Smith" "alice@example.com" create_table).2).1 =
      CreateResult.duplicateEmail "alice@example.com" ∧
    countEmail (create_user "Bob" "alice@example.com"
        (create_user "Alice Smith" "alice@example.com" create_table).2).2.rows
      "alice@example.com" = 1 :=
  create_duplicate_email_second_rejected create_table "Alice Smith" "Bob"
    "alice@example.com" (by simp [create_table, emailsUnique])

/-- C3: in every state reachable by any sequence of the exposed
operations from the fresh table, no two users share an email; moreover
an insert whose email already exists, or an update whose merged email
is held by a different existing user, returns the duplicate-email error
and leaves the table exactly as it was. -/
theorem email_uniqueness_invariant :
    (∀ ops : List Op, emailsUnique (run ops).rows) ∧
    (∀ (db : DB) (n e : String), emailExists db.rows e = true →
      create_user n e db = (CreateResult.duplicateEmail e, db)) ∧
    (∀ (db : DB) (user_id : Nat) (nm em : Option String) (cur : User),
      (nm.isNone && em.isNone) = false →
      read_user user_id db = ReadResult.success cur →
      db.rows.any (fun u => u.email == em.getD cur.email && u.id != user_id)
        = true →
      update_user user_id nm em db =
        (UpdateResult.duplicateEmail (em.getD cur.email), db)) := by
  refine ⟨fun ops => (DBInv_run ops).1, ?_, ?_⟩
  · intro db n e h
    simp [create_user, h]
  · intro db user_id nm em cur hguard hread hany
    simp [update_user, hguard, hread, hany]

/-- C3 witness: inserting a second user with Alice's email into the
one-row table is rejected and changes nothing. -/
theorem email_uniqueness_invariant_witness :
    create_user "Bob" "alice@example.com"
        ⟨1, [⟨1, "Alice Smith", "alice@example.com"⟩]⟩ =
      (CreateResult.duplicateEmail "alice@example.com",
       ⟨1, [⟨1, "Alice Smith", "alice@example.com"⟩]⟩) :=
  email_uniqueness_invariant.2.1 ⟨1, [⟨1, "Alice Smith", "alice@example.com"⟩]⟩
    "Bob" "alice@example.com" (by decide)

/-- C9: a `delete_user` call that reports success removes the row, so a
subsequent `read_user` of the same id returns the `Not Found` result;
and `delete_user` of an id with no matching row itself returns the
`Not Found` result variant (the function is total — nothing is
thrown). -/
theorem delete_then_read_not_found (user_id : Nat) (db : DB) :
    ((delete_user user_id db).1 = DeleteResult.success user_id →
      read_user user_id (delete_user user_id db).2 =
        ReadResult.notFound user_id) ∧
    ((∀ u ∈ db.rows, u.id ≠ user_id) →
      (delete_user user_id db).1 = DeleteResult.notFound user_id) := by
  constructor
  · intro hsucc
    by_cases hc :
        (db.rows.filter (fun u => u.id != user_id)).length < db.rows.length
    · simp only [delete_user, hc, if_true]
      rw [read_user]
      have hnone : (db.rows.filter (fun u => u.id != user_id)).find?
          (fun u => u.id == user_id) = none := by
        rw [List.find?_eq_none]
        intro x hx
        have := (List.mem_filter.mp hx).2
        simpa using this
      rw [hnone]
    · simp [delete_user, hc] at hsucc
  · intro hnone
    have hfilter : db.rows.filter (fun u => u.id != user_id) = db.rows := by
      apply List.filter_eq_self.mpr
      intro u hu
      simpa using hnone u hu
    simp [delete_user, hfilter]

/-- C9 witness: deleting user 1 from the one-row table succeeds and the
follow-up read reports `Not Found`; deleting id 2, which matches no
row, reports `Not Found`. -/
theorem delete_then_read_not_found_witness :
    read_user 1 (delete_user 1 ⟨1, [⟨1, "Alice Smith", "alice@example.com"⟩]⟩).2
      = ReadResult.notFound 1 ∧
    (delete_user 2 ⟨1, [⟨1, "Alice Smith", "alice@example.com"⟩]⟩).1
      = DeleteResult.notFound 2 :=
  ⟨(delete_then_read_not_found 1 ⟨1, [⟨1, "Alice Smith", "alice@example.com"⟩]⟩).1
      (by decide),
   (delete_then_read_not_found 2 ⟨1, [⟨1, "Alice Smith", "alice@example.com"⟩]⟩).2
      (by decide)⟩

/-- C4 counterexample: user 2 exists and the email field is supplied,
yet `update_user` does not write the merged record — it returns the
duplicate-email error because the merged email belongs to user 1. -/
theorem update_partial_merge_counterexample :
    read_user 2 ⟨2, [⟨1, "Alice", "a@x"⟩, ⟨2, "Bob", "b@x"⟩]⟩ =
      ReadResult.success ⟨2, "Bob", "b@x"⟩ ∧
    (update_user 2 none (some "a@x")
        ⟨2, [⟨1, "Alice", "a@x"⟩, ⟨2, "Bob", "b@x"⟩]⟩).1 =
      UpdateResult.duplicateEmail "a@x" ∧
    (update_user 2 none (some "a@x")
        ⟨2, [⟨1, "Alice", "a@x"⟩, ⟨2, "Bob", "b@x"⟩]⟩).1 ≠
      UpdateResult.success ⟨2, "Bob", "a@x"⟩ := by
  decide

/-- C4 (amended): for an existing user id with at least one field
supplied, *provided the merged email is not held by a different
existing row*, `update_user` writes the record in which each supplied
field takes the new value and each unsupplied field keeps the prior
value, returns that merged user, and a subsequent read of the id
returns it. -/
theorem update_partial_merge (db : DB) (user_id : Nat)
    (nm em : Option String) (cur : User)
    (hfind : db.rows.find? (fun u => u.id == user_id) = some cur)
    (hsome : (nm.isNone && em.isNone) = false)
    (hnodup : db.rows.any
        (fun u => u.email == em.getD cur.email && u.id != user_id) = false) :
    update_user user_id nm em db =
      (UpdateResult.success ⟨user_id, nm.getD cur.name, em.getD cur.email⟩,
       ⟨db.seq, db.rows.map (fun u =>
          if u.id == user_id then
            ⟨user_id, nm.getD cur.name, em.getD cur.email⟩ else u)⟩) ∧
    read_user user_id (update_user user_id nm em db).2 =
      ReadResult.success ⟨user_id, nm.getD cur.name, em.getD cur.email⟩ := by
  have h1 : update_user user_id nm em db =
      (UpdateResult.success ⟨user_id, nm.getD cur.name, em.getD cur.email⟩,
       ⟨db.seq, db.rows.map (fun u =>
          if u.id == user_id then
            ⟨user_id, nm.getD cur.name, em.getD cur.email⟩ else u)⟩) := by
    simp [update_user, read_user, hsome, hfind, hnodup]
  refine ⟨h1, ?_⟩
  rw [h1]
  rw [read_user]
  rw [List.find?_map]
  have hpred : ((fun u : User => u.id == user_id) ∘ (fun u : User =>
      if u.id == user_id then
        ⟨user_id, nm.getD cur.name, em.getD cur.email⟩ else u)) =
      (fun u : User => u.id == user_id) := by
    funext u
    by_cases hu : u.id = user_id <;> simp [hu]
  rw [hpred, hfind]
  have hid : cur.id = user_id := by
    have := List.find?_some hfind
    simpa using this
  simp [hid]

/-- C4 witness (for the amended theorem): updating only the name of
user 2 keeps the email and reads back merged. -/
theorem update_partial_merge_witness :
    read_user 2 (update_user 2 (some "Bobby") none
        ⟨2, [⟨1, "Alice", "a@x"⟩, ⟨2, "Bob", "b@x"⟩]⟩).2 =
      ReadResult.success ⟨2, "Bobby", "b@x"⟩ :=
  (update_partial_merge ⟨2, [⟨1, "Alice", "a@x"⟩, ⟨2, "Bob", "b@x"⟩]⟩ 2
    (some "Bobby") none ⟨2, "Bob", "b@x"⟩ (by decide) (by decide) (by decide)).2

/-- C6: `populate_database` on an empty table inserts exactly the 5
fixed sample users (ids continuing from the sequence value) and reports
success with created count 5; on any non-empty table it is a no-op
reporting the existing row count; hence a repeated call after seeding
reports "skipped" and changes nothing. -/
theorem populate_database_spec (db : DB) :
    (db.rows = [] →
      populate_database db =
        (PopulateResult.success (seededRows db.seq) 5,
         ⟨db.seq + 5, seededRows db.seq⟩)) ∧
    (db.rows ≠ [] →
      populate_database db = (PopulateResult.skipped db.rows.length, db)) ∧
    (db.rows = [] →
      populate_database (populate_database db).2 =
        (PopulateResult.skipped 5, (populate_database db).2)) := by
  obtain ⟨s, rows⟩ := db
  have hp1 : rows = [] →
      populate_database ⟨s, rows⟩ =
        (PopulateResult.success (seededRows s) 5, ⟨s + 5, seededRows s⟩) := by
    rintro rfl
    simp [populate_database, list_users, sample_users, populateStep,
          create_user, emailExists, nextId, maxId, seededRows,
          Nat.max_zero, Nat.max_self]
  have hp2 : rows ≠ [] →
      populate_database ⟨s, rows⟩ =
        (PopulateResult.skipped rows.length, ⟨s, rows⟩) := by
    intro h
    cases rows with
    | nil => exact absurd rfl h
    | cons u l => simp [populate_database, list_users]
  refine ⟨hp1, hp2, ?_⟩
  intro h
  rw [hp1 h]
  simp [populate_database, list_users, seededRows]

/-- C6 witness: seeding the fresh table creates the five samples with
ids 1..5; re-seeding is skipped. -/
theorem populate_database_spec_witness :
    populate_database create_table =
      (PopulateResult.success (seededRows 0) 5, ⟨5, seededRows 0⟩) :=
  (populate_database_spec create_table).1 rfl

/-- C8: in every reachable state, `list_users` returns exactly the rows
of the table, and their ids are strictly increasing along the returned
sequence (id-ascending order). -/
theorem list_users_all_sorted (ops : List Op) :
    list_users (run ops) = (run ops).rows ∧
    idsSorted (list_users (run ops)) :=
  ⟨rfl, (DBInv_run ops).2⟩

/-- C10: whenever `create_user`, `update_user` or `delete_user` returns
an error result (duplicate email, not found, or invalid argument), the
database state after the call equals the state before it — errors never
partially apply a change (`read_user` and `list_users` never write at
all, so nothing is to prove for them). -/
theorem error_results_leave_db_unchanged :
    (∀ (n e : String) (db : DB), (create_user n e db).1.isErr = true →
      (create_user n e db).2 = db) ∧
    (∀ (user_id : Nat) (nm em : Option String) (db : DB),
      (update_user user_id nm em db).1.isErr = true →
      (update_user user_id nm em db).2 = db) ∧
    (∀ (user_id : Nat) (db : DB), (delete_user user_id db).1.isErr = true →
      (delete_user user_id db).2 = db) := by
  refine ⟨?_, ?_, ?_⟩
  · intro n e db h
    cases hex : emailExists db.rows e with
    | true => simp [create_user, hex]
    | false => simp [create_user, hex, CreateResult.isErr] at h
  · intro user_id nm em db h
    cases hg : (nm.isNone && em.isNone) with
    | true => simp [update_user, hg]
    | false =>
      cases hread : read_user user_id db with
      | notFound k => simp [update_user, hg, hread]
      | success cur =>
        cases hany : db.rows.any
            (fun u => u.email == em.getD cur.email && u.id != user_id) with
        | true => simp [update_user, hg, hread, hany]
        | false =>
          simp [update_user, hg, hread, hany, UpdateResult.isErr] at h
  · intro user_id db h
    by_cases hc :
        (db.rows.filter (fun u => u.id != user_id)).length < db.rows.length
    · simp [delete_user, hc, DeleteResult.isErr] at h
    · simp [delete_user, hc]

/-- C10 witness: the field-less update errors out and leaves the fresh
table untouched. -/
theorem error_results_leave_db_unchanged_witness :
    (update_user 1 none none create_table).2 = create_table :=
  error_results_leave_db_unchanged.2.1 1 none none create_table (by decide)
